import Mathlib

/-!
# Verification of the citygen road-network generator (src/main.rs)

A shallow embedding of the procedural road-growth core of `citygen`:
2D/3D vector geometry, the segment intersection test `intersects`, road
materialization (`Road::end`, `new_segment`), the `RoadQuery` ordering used
by the scheduler's binary heap, and the growth loop of `App::start`.

`f32` arithmetic is modelled as arithmetic in a linear ordered field; the
theorems are stated polymorphically (so they hold for `ℝ`, the idealized
reading of `f32`) and are exercised on `ℚ`, where they evaluate.  The trig
and square-root primitives (`f32::sin`, `f32::cos` and the engine's
`Vec2::norm` magnitude), which live outside this repository, are supplied
through the `Trig` interface, instantiated with the genuine `Real.sin`,
`Real.cos`, `Real.sqrt` for `ℝ`.

The bodies of `check_local` and `gen_global` are not part of this
repository's files (only their call sites in `App::start` are); they are
modelled from the spec, as their doc comments state.
-/

/-- The trigonometric / square-root primitives used by the source
(`f32::sin`, `f32::cos`, the magnitude inside the engine's `Vec2::norm`,
and the constant `std::f32::consts::PI`).  These functions live outside
the repository; for `ℝ` they are the genuine real functions. -/
class Trig (α : Type) where
  sin : α → α
  cos : α → α
  sqrt : α → α
  pi : α

noncomputable instance : Trig ℝ where
  sin := Real.sin
  cos := Real.cos
  sqrt := Real.sqrt
  pi := Real.pi

/-- A `Trig` structure on `ℚ` (the scalars used to *execute* the growth
loop in witnesses; the loop's control flow never inspects these values). -/
instance : Trig ℚ where
  sin := fun _ => 0
  cos := fun _ => 1
  sqrt := fun _ => 1
  pi := 0

/-- The engine's 2D vector (`alg::Vec2`). -/
structure Vec2 (α : Type) where
  x : α
  y : α

/-- The engine's 3D vector (`alg::Vec3`). -/
structure Vec3 (α : Type) where
  x : α
  y : α
  z : α

/-- The engine's debug line segment (`graphics::Line`): a pair of 3D
endpoints.  (`end` is a Lean keyword, so the second endpoint is `stop`.) -/
structure Line (α : Type) where
  start : Vec3 α
  stop : Vec3 α

section Geometry

variable {α : Type} [LinearOrderedField α]

instance : Add (Vec2 α) := ⟨fun a b => ⟨a.x + b.x, a.y + b.y⟩⟩

instance : Sub (Vec2 α) := ⟨fun a b => ⟨a.x - b.x, a.y - b.y⟩⟩

/-- Scalar multiplication `Vec2 * scalar`, as used by `direction * self.length` in `Road::end`. -/
instance : HMul (Vec2 α) α (Vec2 α) := ⟨fun v s => ⟨v.x * s, v.y * s⟩⟩

instance : Sub (Vec3 α) := ⟨fun a b => ⟨a.x - b.x, a.y - b.y, a.z - b.z⟩⟩

/-- The 3D cross product (`Vec3::cross`). -/
def Vec3.cross (a b : Vec3 α) : Vec3 α :=
  ⟨a.y * b.z - a.z * b.y, a.z * b.x - a.x * b.z, a.x * b.y - a.y * b.x⟩

@[simp] lemma Vec2.add_x (a b : Vec2 α) : (a + b).x = a.x + b.x := rfl

@[simp] lemma Vec2.add_y (a b : Vec2 α) : (a + b).y = a.y + b.y := rfl

@[simp] lemma Vec2.hmul_x (v : Vec2 α) (s : α) : (v * s).x = v.x * s := rfl

@[simp] lemma Vec2.hmul_y (v : Vec2 α) (s : α) : (v * s).y = v.y * s := rfl

@[simp] lemma Vec3.sub_x (a b : Vec3 α) : (a - b).x = a.x - b.x := rfl

@[simp] lemma Vec3.sub_y (a b : Vec3 α) : (a - b).y = a.y - b.y := rfl

@[simp] lemma Vec3.sub_z (a b : Vec3 α) : (a - b).z = a.z - b.z := rfl

@[simp] lemma Vec3.cross_y (a b : Vec3 α) : (a.cross b).y = a.z * b.x - a.x * b.z := rfl

/-- Source `fn intersects(a: Line, b: Line) -> bool` — the 2D proper-crossing test
(the segments live in the `y = 0` plane; only the `y` component of the 3D
cross product is consulted). -/
def intersects (a b : Line α) : Bool :=
  let compare := a.stop - a.start
  let vs := b.start - a.start
  let o1 := (vs.cross compare).y
  let vs := b.stop - a.start
  let o2 := (vs.cross compare).y
  let compare := b.stop - b.start
  let vs := a.start - b.start
  let t1 := (vs.cross compare).y
  let vs := a.stop - b.start
  let t2 := (vs.cross compare).y
  decide (o1 * o2 < 0) && decide (t1 * t2 < 0)

/-- Source `struct Road` — a proposed road's shape: `angle` (degrees, relative to
the incoming heading) and `length`. -/
structure Road (α : Type) where
  angle : α
  length : α

/-- Source `struct Query` — the growth context: `origin` and the absolute incoming
heading `prev_angle` (radians). -/
structure Query (α : Type) where
  origin : Vec2 α
  prev_angle : α

/-- The engine's `Vec2::norm`: the vector scaled to unit length. -/
def Vec2.norm [Trig α] (v : Vec2 α) : Vec2 α :=
  let m := Trig.sqrt (v.x * v.x + v.y * v.y)
  ⟨v.x / m, v.y / m⟩

/-- Source `Road::end` — the end point of the materialized segment:
`origin + norm (sin (prev_angle + angle·π/180), cos (prev_angle + angle·π/180)) * length`.
(`end` is a Lean keyword, hence `endPt`.) -/
def Road.endPt [Trig α] (self : Road α) (query : Query α) : Vec2 α :=
  let angle := self.angle * Trig.pi / 180
  let direction := Vec2.norm
    ⟨Trig.sin (query.prev_angle + angle), Trig.cos (query.prev_angle + angle)⟩
  query.origin + direction * self.length

/-- Source `fn new_segment(road: Road, query: Query) -> Line` — embeds the 2D
segment from `query.origin` to `road.end(query)` into 3D at elevation 0
(a 2D point `(x, y)` becomes `Vec3::new(x, 0.0, y)`). -/
def new_segment [Trig α] (road : Road α) (query : Query α) : Line α :=
  let start := query.origin
  let e := road.endPt query
  ⟨⟨start.x, 0, start.y⟩, ⟨e.x, 0, e.y⟩⟩

/-- Source `struct RoadQuery` — a pending unit of work for the scheduler. -/
structure RoadQuery (α : Type) where
  timer : ℕ
  lifetime : ℕ
  road : Road α
  query : Query α
  valid : Bool

/-- Source `impl Ord for RoadQuery`: `other.timer.cmp(&self.timer)` — the reversed
comparison that makes Rust's max-heap behave as a min-heap on `timer`. -/
def roadQueryCmp (self other : RoadQuery α) : Ordering :=
  compare other.timer self.timer

/-- Source `impl PartialEq for RoadQuery`: `self.timer == other.timer`. -/
def roadQueryEq (self other : RoadQuery α) : Bool :=
  self.timer == other.timer

end Geometry

/-- A model of `std::collections::BinaryHeap::pop` on the heap's contents:
remove one element that is maximal for `cmp` (the scan keeps the earlier
of two `cmp`-equal elements, a deterministic tie-break; the claims proved
below depend only on maximality). -/
def popMax {T : Type} (cmp : T → T → Ordering) : List T → Option (T × List T)
  | [] => none
  | x :: xs =>
    match popMax cmp xs with
    | none => some (x, [])
    | some (m, rest) =>
      if cmp x m = Ordering.lt then some (m, x :: rest) else some (x, xs)

section Growth

variable {α : Type} [LinearOrderedField α]

/-- The growth-policy parameters the spec (§4.3) requires as configuration:
`max_lifetime`, `branch_angles`, `length_falloff`, `timer_increment`. -/
structure Config (α : Type) where
  max_lifetime : ℕ
  branch_angles : α × α
  length_falloff : α
  timer_increment : ℕ

/-- Modelled from the spec: the body of `check_local` is not in this
repository's files (only its call site `check_local(rq, &self.lines)` in
`App::start` is).  Per §4.2 it must reject when `!candidate.valid`, and
must reject a candidate whose materialized segment crosses any segment of
the accepted network; per §4.3 a query whose `lifetime` exceeds the
configured `max_lifetime` must not contribute a segment, which (given that
the caller pushes every generated child) must also be enforced here. -/
def check_local [Trig α] (cfg : Config α) (rq : RoadQuery α)
    (lines : List (Line α)) : Bool :=
  rq.valid && decide (rq.lifetime ≤ cfg.max_lifetime) &&
    lines.all fun line => ! intersects (new_segment rq.road rq.query) line

/-- Modelled from the spec: the body of `gen_global` is not in this
repository's files (only its call site in `App::start` is).  Per §4.3 it
emits exactly three branch queries (straight continuation and the two
configured divergence angles), each with `lifetime` one more than the
parent's, a `timer` strictly greater than the parent's, origin at the
parent's computed end point and `prev_angle` the parent's resultant
heading. -/
def gen_global [Trig α] (cfg : Config α) (timer lifetime : ℕ)
    (road : Road α) (query : Query α) :
    RoadQuery α × RoadQuery α × RoadQuery α :=
  let origin := road.endPt query
  let heading := query.prev_angle + road.angle * Trig.pi / 180
  let branch := fun (angle : α) =>
    { timer := timer + 1 + cfg.timer_increment
      lifetime := lifetime + 1
      road := { angle := angle, length := road.length * cfg.length_falloff }
      query := { origin := origin, prev_angle := heading }
      valid := true : RoadQuery α }
  (branch 0, branch cfg.branch_angles.1, branch cfg.branch_angles.2)

/-- The state of the growth loop in `App::start`: the pending-query heap
`q` (modelled by its contents), the accepted network `lines`, and an
instrumentation counter `pushed` recording how many queries were ever
pushed onto `q`. -/
structure Sim (α : Type) where
  q : List (RoadQuery α)
  lines : List (Line α)
  pushed : ℕ

/-- The state right after `self.q.push(initial_query)`: the seed is the
only pending query, the network is empty. -/
def initSim (seed : RoadQuery α) : Sim α :=
  ⟨[seed], [], 1⟩

/-- The `initial_query` literal of `App::start` (timer 0, lifetime 0,
`Road { angle: 45.0, length: 0.5 }`, origin `(0,0)`, `prev_angle` 0,
valid). -/
def initial_query : RoadQuery α :=
  ⟨0, 0, ⟨45, 1 / 2⟩, ⟨⟨0, 0⟩, 0⟩, true⟩

/-- One iteration of the growth loop of `App::start`: pop the
highest-priority query; if `check_local` rejects it, `continue`; otherwise
append its real segment to `lines` and push the three queries produced by
`gen_global`.  On an empty queue the loop has ended and the state is
fixed. -/
def step [Trig α] (cfg : Config α) (s : Sim α) : Sim α :=
  match popMax roadQueryCmp s.q with
  | none => s
  | some (rq, rest) =>
    if check_local cfg rq s.lines then
      let (a, b, c) := gen_global cfg rq.timer rq.lifetime rq.road rq.query
      { q := a :: b :: c :: rest
        lines := s.lines ++ [new_segment rq.road rq.query]
        pushed := s.pushed + 3 }
    else
      { q := rest, lines := s.lines, pushed := s.pushed }

/-- Iterating the growth loop `n` times. -/
def run [Trig α] (cfg : Config α) (n : ℕ) (s : Sim α) : Sim α :=
  (step cfg)^[n] s

/-- Termination potential of one pending query: strictly positive, and a
parent's potential strictly exceeds that of its three children combined. -/
def pot (L : ℕ) (rq : RoadQuery α) : ℕ :=
  if rq.lifetime ≤ L then 2 * 3 ^ (L + 1 - rq.lifetime) - 1 else 1

/-- Termination potential of a loop state: the sum over the pending
queue. -/
def phi (cfg : Config α) (s : Sim α) : ℕ :=
  (s.q.map (pot cfg.max_lifetime)).sum

/-- The "which side" orientation sign the spec describes: the 2D cross
product of `r - p` against the direction `q - p`, in the `y = 0` plane
(planar coordinates `x`, `z`). -/
def orient (p q r : Vec3 α) : α :=
  (q.x - p.x) * (r.z - p.z) - (q.z - p.z) * (r.x - p.x)

/-- The intersection predicate exactly as the spec words it: the segments
properly cross iff both sign-pair products (B's endpoints against A's
direction, and A's endpoints against B's direction) are strictly
negative. -/
def specCrosses (a b : Line α) : Prop :=
  orient a.start a.stop b.start * orient a.start a.stop b.stop < 0 ∧
    orient b.start b.stop a.start * orient b.start b.stop a.stop < 0

/-- Three collinear points: the orientation of `r` against the direction
`p → q` vanishes. -/
def collinear3 (p q r : Vec3 α) : Prop :=
  orient p q r = 0

/-- Two collinear segments: each segment's endpoints lie on the line of
the other. -/
def segsCollinear (a b : Line α) : Prop :=
  collinear3 a.start a.stop b.start ∧ collinear3 a.start a.stop b.stop ∧
    collinear3 b.start b.stop a.start ∧ collinear3 b.start b.stop a.stop

end Growth

/-! ## Basic lemmas about the geometry and the heap model -/

section GeometryLemmas

variable {α : Type} [LinearOrderedField α]

lemma intersects_eq_true_iff (a b : Line α) :
    intersects a b = true ↔
      (((b.start - a.start).cross (a.stop - a.start)).y *
          ((b.stop - a.start).cross (a.stop - a.start)).y < 0 ∧
        ((a.start - b.start).cross (b.stop - b.start)).y *
          ((a.stop - b.start).cross (b.stop - b.start)).y < 0) := by
  simp [intersects]

/-- The intersection test is symmetric in its two segments. -/
lemma intersects_symm (a b : Line α) : intersects a b = intersects b a := by
  simp only [intersects]
  exact Bool.and_comm _ _

/-- The `y` component of the cross product of difference vectors is the 2D
orientation sign. -/
lemma cross_sub_y_eq_orient (p q r : Vec3 α) :
    ((r - p).cross (q - p)).y = orient p q r := by
  simp only [Vec3.cross_y, Vec3.sub_x, Vec3.sub_z, orient]
  ring

end GeometryLemmas

section PopMaxLemmas

variable {T : Type}

lemma popMax_nil (cmp : T → T → Ordering) : popMax cmp [] = none := rfl

lemma popMax_cons_ne_none (cmp : T → T → Ordering) (x : T) (xs : List T) :
    popMax cmp (x :: xs) ≠ none := by
  cases h : popMax cmp xs with
  | none => simp [popMax, h]
  | some p =>
    rcases p with ⟨m, rest⟩
    simp only [popMax, h]
    split <;> simp

lemma popMax_eq_none_iff (cmp : T → T → Ordering) (l : List T) :
    popMax cmp l = none ↔ l = [] := by
  cases l with
  | nil => simp [popMax]
  | cons x xs =>
    constructor
    · intro h; exact absurd h (popMax_cons_ne_none cmp x xs)
    · intro h; cases h

/-- The popped element together with the remainder is a permutation of the
original queue: `pop` removes exactly one element. -/
lemma popMax_perm (cmp : T → T → Ordering) (l : List T) (m : T) (rest : List T)
    (h : popMax cmp l = some (m, rest)) : (m :: rest).Perm l := by
  induction l generalizing m rest with
  | nil => simp [popMax] at h
  | cons x xs ih =>
    cases hx : popMax cmp xs with
    | none =>
      simp only [popMax, hx, Option.some.injEq, Prod.mk.injEq] at h
      obtain ⟨rfl, rfl⟩ := h
      have hxs : xs = [] := (popMax_eq_none_iff cmp xs).mp hx
      subst hxs
      exact List.Perm.refl _
    | some p =>
      rcases p with ⟨m', rest'⟩
      have hperm := ih m' rest' hx
      by_cases hc : cmp x m' = Ordering.lt
      · simp only [popMax, hx, if_pos hc, Option.some.injEq, Prod.mk.injEq] at h
        obtain ⟨rfl, rfl⟩ := h
        exact (List.Perm.swap x m' rest').trans (hperm.cons x)
      · simp only [popMax, hx, if_neg hc, Option.some.injEq, Prod.mk.injEq] at h
        obtain ⟨rfl, rfl⟩ := h
        exact List.Perm.refl _

/-- A maximum for the source's reversed comparison is a *minimum* on
`timer`: the popped query's `timer` is least in the queue, whatever the
queries' other fields hold. -/
lemma popMax_timer_le {α : Type} (l : List (RoadQuery α)) (m : RoadQuery α)
    (rest : List (RoadQuery α)) (h : popMax roadQueryCmp l = some (m, rest)) :
    ∀ x ∈ l, m.timer ≤ x.timer := by
  induction l generalizing m rest with
  | nil => simp [popMax] at h
  | cons a xs ih =>
    cases hx : popMax roadQueryCmp xs with
    | none =>
      simp only [popMax, hx, Option.some.injEq, Prod.mk.injEq] at h
      obtain ⟨rfl, rfl⟩ := h
      have hxs : xs = [] := (popMax_eq_none_iff _ xs).mp hx
      subst hxs
      intro x hxm
      rcases List.mem_singleton.mp hxm with rfl
      exact le_refl _
    | some p =>
      rcases p with ⟨m', rest'⟩
      have hall := ih m' rest' hx
      by_cases hc : roadQueryCmp a m' = Ordering.lt
      · simp only [popMax, hx, if_pos hc, Option.some.injEq, Prod.mk.injEq] at h
        obtain ⟨rfl, rfl⟩ := h
        have hma : m'.timer < a.timer := Nat.compare_eq_lt.mp hc
        intro x hxm
        rcases List.mem_cons.mp hxm with rfl | hxm'
        · exact le_of_lt hma
        · exact hall x hxm'
      · simp only [popMax, hx, if_neg hc, Option.some.injEq, Prod.mk.injEq] at h
        obtain ⟨rfl, rfl⟩ := h
        have hc' : ¬ compare m'.timer a.timer = Ordering.lt := by
          simpa [roadQueryCmp] using hc
        have ham : a.timer ≤ m'.timer := by
          rcases Nat.lt_or_ge m'.timer a.timer with hlt | hge
          · exact absurd (Nat.compare_eq_lt.mpr hlt) hc'
          · exact hge
        intro x hxm
        rcases List.mem_cons.mp hxm with rfl | hxm'
        · exact le_refl _
        · exact le_trans ham (hall x hxm')

end PopMaxLemmas

/-! ## Lemmas about the growth loop -/

section StepLemmas

variable {α : Type} [LinearOrderedField α] [Trig α]

lemma check_local_eq_true_iff (cfg : Config α) (rq : RoadQuery α)
    (lines : List (Line α)) :
    check_local cfg rq lines = true ↔
      rq.valid = true ∧ rq.lifetime ≤ cfg.max_lifetime ∧
        ∀ l ∈ lines, intersects (new_segment rq.road rq.query) l = false := by
  simp [check_local, List.all_eq_true, and_assoc]

lemma step_of_empty (cfg : Config α) (s : Sim α) (h : s.q = []) :
    step cfg s = s := by
  unfold step
  rw [h]
  rfl

lemma step_rejected (cfg : Config α) (s : Sim α) (rq : RoadQuery α)
    (rest : List (RoadQuery α))
    (hpop : popMax roadQueryCmp s.q = some (rq, rest))
    (hc : check_local cfg rq s.lines = false) :
    step cfg s = ⟨rest, s.lines, s.pushed⟩ := by
  unfold step
  rw [hpop]
  simp [hc]

lemma step_accepted (cfg : Config α) (s : Sim α) (rq : RoadQuery α)
    (rest : List (RoadQuery α))
    (hpop : popMax roadQueryCmp s.q = some (rq, rest))
    (hc : check_local cfg rq s.lines = true) :
    step cfg s =
      ⟨(gen_global cfg rq.timer rq.lifetime rq.road rq.query).1 ::
          (gen_global cfg rq.timer rq.lifetime rq.road rq.query).2.1 ::
          (gen_global cfg rq.timer rq.lifetime rq.road rq.query).2.2 :: rest,
        s.lines ++ [new_segment rq.road rq.query],
        s.pushed + 3⟩ := by
  unfold step
  rw [hpop]
  simp [hc]

lemma run_zero (cfg : Config α) (s : Sim α) : run cfg 0 s = s := rfl

lemma run_succ (cfg : Config α) (n : ℕ) (s : Sim α) :
    run cfg (n + 1) s = run cfg n (step cfg s) :=
  Function.iterate_succ_apply (step cfg) n s

lemma run_succ_outer (cfg : Config α) (n : ℕ) (s : Sim α) :
    run cfg (n + 1) s = step cfg (run cfg n s) :=
  Function.iterate_succ_apply' (step cfg) n s

lemma run_of_empty (cfg : Config α) (n : ℕ) (s : Sim α) (h : s.q = []) :
    run cfg n s = s :=
  Function.iterate_fixed (step_of_empty cfg s h) n

lemma run_add (cfg : Config α) (m n : ℕ) (s : Sim α) :
    run cfg (m + n) s = run cfg m (run cfg n s) :=
  Function.iterate_add_apply (step cfg) m n s

/-- Once the loop has drained its queue, running it any longer changes
nothing. -/
lemma run_stable (cfg : Config α) (m n : ℕ) (s : Sim α) (hmn : m ≤ n)
    (h : (run cfg m s).q = []) : run cfg n s = run cfg m s := by
  have : n = (n - m) + m := by omega
  rw [this, run_add]
  exact run_of_empty cfg (n - m) (run cfg m s) h

end StepLemmas

/-! ## The termination potential -/

section PotentialLemmas

variable {α : Type} [LinearOrderedField α]

lemma pot_pos (L : ℕ) (rq : RoadQuery α) : 1 ≤ pot L rq := by
  unfold pot
  split
  · have h3 : 1 ≤ 3 ^ (L + 1 - rq.lifetime) := Nat.one_le_pow _ _ (by norm_num)
    omega
  · exact le_refl 1

lemma pot_congr (L : ℕ) (x y : RoadQuery α) (h : x.lifetime = y.lifetime) :
    pot L x = pot L y := by
  unfold pot
  rw [h]

/-- A parent below the lifetime cap is worth its three children plus two:
the acceptance step strictly decreases the total potential. -/
lemma pot_parent_eq (L : ℕ) (p c : RoadQuery α) (hp : p.lifetime ≤ L)
    (hc : c.lifetime = p.lifetime + 1) :
    pot L p = 3 * pot L c + 2 := by
  unfold pot
  rw [if_pos hp]
  rcases Nat.lt_or_ge p.lifetime L with hlt | hge
  · rw [if_pos (by omega : c.lifetime ≤ L), hc]
    have h1 : L + 1 - p.lifetime = (L - p.lifetime) + 1 := by omega
    have h2 : L + 1 - (p.lifetime + 1) = L - p.lifetime := by omega
    rw [h1, h2, pow_succ]
    have h3 : 1 ≤ 3 ^ (L - p.lifetime) := Nat.one_le_pow _ _ (by norm_num)
    omega
  · have hpl : p.lifetime = L := le_antisymm hp hge
    rw [if_neg (by omega : ¬ c.lifetime ≤ L)]
    have h1 : L + 1 - p.lifetime = 1 := by omega
    rw [h1]
    norm_num

lemma phi_pop (cfg : Config α) (s : Sim α) (rq : RoadQuery α)
    (rest : List (RoadQuery α))
    (hpop : popMax roadQueryCmp s.q = some (rq, rest)) :
    phi cfg s = pot cfg.max_lifetime rq + (rest.map (pot cfg.max_lifetime)).sum := by
  have hperm := popMax_perm roadQueryCmp s.q rq rest hpop
  unfold phi
  rw [← (hperm.map (pot cfg.max_lifetime)).sum_eq]
  simp

end PotentialLemmas

section DecreaseLemmas

variable {α : Type} [LinearOrderedField α] [Trig α]

lemma gen_global_fields (cfg : Config α) (timer lifetime : ℕ) (road : Road α)
    (query : Query α) :
    ((gen_global cfg timer lifetime road query).1.lifetime = lifetime + 1 ∧
        (gen_global cfg timer lifetime road query).1.timer =
          timer + 1 + cfg.timer_increment) ∧
      ((gen_global cfg timer lifetime road query).2.1.lifetime = lifetime + 1 ∧
        (gen_global cfg timer lifetime road query).2.1.timer =
          timer + 1 + cfg.timer_increment) ∧
      ((gen_global cfg timer lifetime road query).2.2.lifetime = lifetime + 1 ∧
        (gen_global cfg timer lifetime road query).2.2.timer =
          timer + 1 + cfg.timer_increment) := by
  simp [gen_global]

/-- Every iteration on a non-empty queue strictly decreases the total
potential: the loop terminates. -/
lemma phi_step_lt (cfg : Config α) (s : Sim α) (h : s.q ≠ []) :
    phi cfg (step cfg s) < phi cfg s := by
  cases hpop : popMax roadQueryCmp s.q with
  | none => exact absurd ((popMax_eq_none_iff _ _).mp hpop) h
  | some p =>
    rcases p with ⟨rq, rest⟩
    have hphi := phi_pop cfg s rq rest hpop
    by_cases hc : check_local cfg rq s.lines = true
    · rw [step_accepted cfg s rq rest hpop hc]
      have hlt : rq.lifetime ≤ cfg.max_lifetime :=
        ((check_local_eq_true_iff cfg rq s.lines).mp hc).2.1
      have hg := gen_global_fields cfg rq.timer rq.lifetime rq.road rq.query
      have hpot1 := pot_parent_eq cfg.max_lifetime rq
        (gen_global cfg rq.timer rq.lifetime rq.road rq.query).1 hlt hg.1.1
      have e21 := pot_congr cfg.max_lifetime
        (gen_global cfg rq.timer rq.lifetime rq.road rq.query).2.1
        (gen_global cfg rq.timer rq.lifetime rq.road rq.query).1
        (by rw [hg.2.1.1, hg.1.1])
      have e22 := pot_congr cfg.max_lifetime
        (gen_global cfg rq.timer rq.lifetime rq.road rq.query).2.2
        (gen_global cfg rq.timer rq.lifetime rq.road rq.query).1
        (by rw [hg.2.2.1, hg.1.1])
      unfold phi
      simp only [List.map_cons, List.sum_cons]
      rw [e21, e22]
      unfold phi at hphi
      omega
    · rw [step_rejected cfg s rq rest hpop (by simpa using hc)]
      have hp := pot_pos cfg.max_lifetime rq
      unfold phi
      unfold phi at hphi
      dsimp only
      omega

/-- The combined measure `3·potential + 2·pushed` never increases: it
bounds how many queries the loop can ever push. -/
lemma measure_step_le (cfg : Config α) (s : Sim α) :
    3 * phi cfg (step cfg s) + 2 * (step cfg s).pushed ≤
      3 * phi cfg s + 2 * s.pushed := by
  cases hpop : popMax roadQueryCmp s.q with
  | none =>
    rw [step_of_empty cfg s ((popMax_eq_none_iff _ _).mp hpop)]
  | some p =>
    rcases p with ⟨rq, rest⟩
    have hphi := phi_pop cfg s rq rest hpop
    by_cases hc : check_local cfg rq s.lines = true
    · rw [step_accepted cfg s rq rest hpop hc]
      have hlt : rq.lifetime ≤ cfg.max_lifetime :=
        ((check_local_eq_true_iff cfg rq s.lines).mp hc).2.1
      have hg := gen_global_fields cfg rq.timer rq.lifetime rq.road rq.query
      have hpot1 := pot_parent_eq cfg.max_lifetime rq
        (gen_global cfg rq.timer rq.lifetime rq.road rq.query).1 hlt hg.1.1
      have e21 := pot_congr cfg.max_lifetime
        (gen_global cfg rq.timer rq.lifetime rq.road rq.query).2.1
        (gen_global cfg rq.timer rq.lifetime rq.road rq.query).1
        (by rw [hg.2.1.1, hg.1.1])
      have e22 := pot_congr cfg.max_lifetime
        (gen_global cfg rq.timer rq.lifetime rq.road rq.query).2.2
        (gen_global cfg rq.timer rq.lifetime rq.road rq.query).1
        (by rw [hg.2.2.1, hg.1.1])
      unfold phi
      simp only [List.map_cons, List.sum_cons]
      rw [e21, e22]
      unfold phi at hphi
      omega
    · rw [step_rejected cfg s rq rest hpop (by simpa using hc)]
      have hp := pot_pos cfg.max_lifetime rq
      unfold phi
      unfold phi at hphi
      dsimp only
      omega

/-- Enough fuel (the initial potential) drains the queue completely. -/
lemma run_drains (cfg : Config α) :
    ∀ (k : ℕ) (s : Sim α), phi cfg s ≤ k → (run cfg k s).q = [] := by
  intro k
  induction k with
  | zero =>
    intro s h
    cases hq : s.q with
    | nil => rw [run_zero]; exact hq
    | cons x xs =>
      exfalso
      have hp := pot_pos cfg.max_lifetime x
      unfold phi at h
      rw [hq] at h
      simp only [List.map_cons, List.sum_cons] at h
      omega
  | succ k ih =>
    intro s h
    by_cases hq : s.q = []
    · rw [run_of_empty cfg _ s hq]
      exact hq
    · rw [run_succ]
      exact ih (step cfg s) (by have := phi_step_lt cfg s hq; omega)

lemma measure_run_le (cfg : Config α) (n : ℕ) (s : Sim α) :
    3 * phi cfg (run cfg n s) + 2 * (run cfg n s).pushed ≤
      3 * phi cfg s + 2 * s.pushed := by
  induction n with
  | zero => rw [run_zero]
  | succ n ih =>
    rw [run_succ_outer]
    exact le_trans (measure_step_le cfg (run cfg n s)) ih

lemma phi_init (cfg : Config α) (seed : RoadQuery α) (h : seed.lifetime = 0) :
    phi cfg (initSim seed) = 2 * 3 ^ (cfg.max_lifetime + 1) - 1 := by
  unfold phi initSim pot
  simp [h]

end DecreaseLemmas

section PairwiseLemmas

variable {α : Type} [LinearOrderedField α] [Trig α]

/-- One loop iteration preserves the no-crossing invariant of the accepted
network: a segment is appended only after `check_local` verified it
against every accepted segment. -/
lemma pairwise_step (cfg : Config α) (s : Sim α)
    (h : s.lines.Pairwise fun u v =>
      intersects u v = false ∧ intersects v u = false) :
    (step cfg s).lines.Pairwise fun u v =>
      intersects u v = false ∧ intersects v u = false := by
  cases hpop : popMax roadQueryCmp s.q with
  | none => rw [step_of_empty cfg s ((popMax_eq_none_iff _ _).mp hpop)]; exact h
  | some p =>
    rcases p with ⟨rq, rest⟩
    by_cases hc : check_local cfg rq s.lines = true
    · rw [step_accepted cfg s rq rest hpop hc]
      have hall := ((check_local_eq_true_iff cfg rq s.lines).mp hc).2.2
      dsimp only
      rw [List.pairwise_append]
      refine ⟨h, List.pairwise_singleton _ _, ?_⟩
      intro u hu v hv
      rcases List.mem_singleton.mp hv with rfl
      have hvu : intersects (new_segment rq.road rq.query) u = false := hall u hu
      exact ⟨by rw [intersects_symm]; exact hvu, hvu⟩
    · rw [step_rejected cfg s rq rest hpop (by simpa using hc)]
      exact h

lemma pairwise_run (cfg : Config α) (n : ℕ) (s : Sim α)
    (h : s.lines.Pairwise fun u v =>
      intersects u v = false ∧ intersects v u = false) :
    (run cfg n s).lines.Pairwise fun u v =>
      intersects u v = false ∧ intersects v u = false := by
  induction n with
  | zero => exact h
  | succ n ih => rw [run_succ_outer]; exact pairwise_step cfg (run cfg n s) ih

end PairwiseLemmas

/-! ## The claims -/

/-- C1: for every pair of distinct segments in the final accepted network
(the `lines` sequence built by the growth loop from the seeded initial
state), the intersection test returns `false` in both argument orders: no
two accepted segments properly cross.  (This holds after every number of
iterations, in particular once the loop has ended.) -/
theorem c1_accepted_network_never_crosses (α : Type) [LinearOrderedField α]
    [Trig α] (cfg : Config α) (seed : RoadQuery α) (n : ℕ) :
    ((run cfg n (initSim seed)).lines).Pairwise fun u v =>
      intersects u v = false ∧ intersects v u = false :=
  pairwise_run cfg n (initSim seed) (by simp [initSim])

/-- C2: `intersects` reports a crossing iff both orientation sign-pair
products (B's endpoints against A's direction and A's endpoints against
B's direction) are strictly negative; two segments crossing at their
midpoints, `(0,0)-(2,2)` and `(0,2)-(2,0)`, are detected as intersecting,
while two segments sharing only the endpoint `(1,0)` are not. -/
theorem c2_intersects_matches_spec (α : Type) [LinearOrderedField α] :
    (∀ a b : Line α, intersects a b = true ↔ specCrosses a b) ∧
      intersects (⟨⟨0, 0, 0⟩, ⟨2, 0, 2⟩⟩ : Line α) ⟨⟨0, 0, 2⟩, ⟨2, 0, 0⟩⟩ = true ∧
      intersects (⟨⟨0, 0, 0⟩, ⟨1, 0, 0⟩⟩ : Line α) ⟨⟨1, 0, 0⟩, ⟨1, 0, 1⟩⟩ = false := by
  have hiff : ∀ a b : Line α, intersects a b = true ↔ specCrosses a b := by
    intro a b
    rw [intersects_eq_true_iff]
    unfold specCrosses
    rw [cross_sub_y_eq_orient, cross_sub_y_eq_orient, cross_sub_y_eq_orient,
      cross_sub_y_eq_orient]
  refine ⟨hiff, ?_, ?_⟩
  · rw [hiff]
    unfold specCrosses orient
    norm_num
  · rw [Bool.eq_false_iff, Ne, hiff]
    unfold specCrosses orient
    norm_num

/-- C9: `RoadQuery` equality holds iff the `timer` fields are equal, and
the reversed ordering consults only `timer`: two queries with equal timers
compare as equal whatever their geometry, `lifetime` or `valid` flags. -/
theorem c9_ordering_uses_timer_only (α : Type) (x y : RoadQuery α) :
    (roadQueryEq x y = true ↔ x.timer = y.timer) ∧
      (roadQueryCmp x y = Ordering.eq ↔ x.timer = y.timer) ∧
      (roadQueryCmp x y = Ordering.gt ↔ x.timer < y.timer) ∧
      (roadQueryCmp x y = Ordering.lt ↔ y.timer < x.timer) := by
  refine ⟨?_, ?_, ?_, ?_⟩
  · simp [roadQueryEq]
  · unfold roadQueryCmp
    rw [Nat.compare_eq_eq]
    exact eq_comm
  · unfold roadQueryCmp
    exact Nat.compare_eq_gt
  · unfold roadQueryCmp
    exact Nat.compare_eq_lt

/-- C10: two collinear segments never register as intersecting (every
orientation sign vanishes, so the strict `< 0` tests fail), and a
zero-length segment (equal endpoints) never registers as intersecting
against any segment, in either argument order. -/
theorem c10_collinear_never_intersects (α : Type) [LinearOrderedField α] :
    (∀ a b : Line α, segsCollinear a b → intersects a b = false) ∧
      ∀ a b : Line α, a.start = a.stop →
        intersects a b = false ∧ intersects b a = false := by
  constructor
  · intro a b hcol
    unfold segsCollinear collinear3 at hcol
    rw [Bool.eq_false_iff, Ne]
    intro htrue
    have h := (intersects_eq_true_iff a b).mp htrue
    rw [cross_sub_y_eq_orient, cross_sub_y_eq_orient, cross_sub_y_eq_orient,
      cross_sub_y_eq_orient] at h
    rw [hcol.1, hcol.2.1] at h
    simp at h
  · intro a b hdeg
    constructor
    · rw [Bool.eq_false_iff, Ne]
      intro htrue
      have h := (intersects_eq_true_iff a b).mp htrue
      rw [hdeg] at h
      simp at h
    · rw [Bool.eq_false_iff, Ne]
      intro htrue
      have h := (intersects_eq_true_iff b a).mp htrue
      rw [hdeg] at h
      exact absurd h.1 (not_lt.mpr (mul_self_nonneg _))

/-- C3: the scheduler pops a query whose `timer` is minimal among all
pending queries (the popped element is a `roadQueryCmp`-maximum, and that
comparison reverses `timer` and reads nothing else), removes exactly one
query per iteration (the pop is a one-element removal up to permutation),
and the loop is at a fixed point exactly when the queue is empty. -/
theorem c3_scheduler_min_timer (α : Type) [LinearOrderedField α] [Trig α]
    (cfg : Config α) :
    (∀ (l : List (RoadQuery α)) (m : RoadQuery α) (rest : List (RoadQuery α)),
        popMax roadQueryCmp l = some (m, rest) →
          (∀ x ∈ l, m.timer ≤ x.timer) ∧ (m :: rest).Perm l) ∧
      (∀ l : List (RoadQuery α), popMax roadQueryCmp l = none ↔ l = []) ∧
      ∀ s : Sim α, step cfg s = s ↔ s.q = [] := by
  refine ⟨fun l m rest h => ⟨popMax_timer_le l m rest h, popMax_perm _ l m rest h⟩,
    fun l => popMax_eq_none_iff _ l, fun s => ⟨?_, step_of_empty cfg s⟩⟩
  intro hstep
  by_contra hq
  cases hpop : popMax roadQueryCmp s.q with
  | none => exact hq ((popMax_eq_none_iff _ _).mp hpop)
  | some p =>
    rcases p with ⟨rq, rest⟩
    have hperm := popMax_perm roadQueryCmp s.q rq rest hpop
    have hlen : rest.length + 1 = s.q.length := by
      have := hperm.length_eq
      simpa using this
    by_cases hc : check_local cfg rq s.lines = true
    · have hacc := step_accepted cfg s rq rest hpop hc
      rw [hstep] at hacc
      have hpush := congrArg Sim.pushed hacc
      dsimp at hpush
      omega
    · have hrej := step_rejected cfg s rq rest hpop (by simpa using hc)
      rw [hstep] at hrej
      have hql := congrArg (fun t : Sim α => t.q.length) hrej
      dsimp at hql
      omega

/-- C4: the materialized segment starts at `origin`, and its end point is
`origin + length · (sin θ, cos θ)` where `θ = prev_angle + angle·π/180` is
the resultant heading (the source stores `angle` in degrees and converts);
in particular for origin `(0,0)`, `prev_angle = 0`, `angle = 0`,
`length = 1` the end point is `(0, 1)`. -/
theorem c4_materialize_end_point :
    (∀ (road : Road ℝ) (query : Query ℝ),
        road.endPt query =
          ⟨query.origin.x + road.length *
              Real.sin (query.prev_angle + road.angle * Real.pi / 180),
            query.origin.y + road.length *
              Real.cos (query.prev_angle + road.angle * Real.pi / 180)⟩ ∧
        (new_segment road query).start = ⟨query.origin.x, 0, query.origin.y⟩ ∧
        (new_segment road query).stop =
          ⟨(road.endPt query).x, 0, (road.endPt query).y⟩) ∧
      Road.endPt (⟨0, 1⟩ : Road ℝ) ⟨⟨0, 0⟩, 0⟩ = ⟨0, 1⟩ := by
  have hsqrt : ∀ θ : ℝ,
      Real.sqrt (Real.sin θ * Real.sin θ + Real.cos θ * Real.cos θ) = 1 := by
    intro θ
    rw [← pow_two (Real.sin θ), ← pow_two (Real.cos θ),
      Real.sin_sq_add_cos_sq, Real.sqrt_one]
  have key : ∀ (road : Road ℝ) (query : Query ℝ),
      road.endPt query =
        ⟨query.origin.x + road.length *
            Real.sin (query.prev_angle + road.angle * Real.pi / 180),
          query.origin.y + road.length *
            Real.cos (query.prev_angle + road.angle * Real.pi / 180)⟩ := by
    intro road query
    simp only [Road.endPt, Vec2.norm]
    rw [show (Trig.pi : ℝ) = Real.pi from rfl,
      show (Trig.sin : ℝ → ℝ) = Real.sin from rfl,
      show (Trig.cos : ℝ → ℝ) = Real.cos from rfl,
      show (Trig.sqrt : ℝ → ℝ) = Real.sqrt from rfl, hsqrt]
    show Vec2.mk _ _ = Vec2.mk _ _
    rw [Vec2.mk.injEq]
    constructor <;> · simp only [Vec2.hmul_x, Vec2.hmul_y] ; ring
  refine ⟨fun road query => ⟨key road query, rfl, rfl⟩, ?_⟩
  rw [key]
  norm_num [Real.sin_zero, Real.cos_zero]

/-- C5: expansion produces exactly three child queries, each with
`lifetime` one more than the parent's and `timer` strictly greater than
the parent's, and on acceptance the loop pushes exactly those three
children back onto the queue. -/
theorem c5_expand_three_children (α : Type) [LinearOrderedField α] [Trig α]
    (cfg : Config α) :
    (∀ (timer lifetime : ℕ) (road : Road α) (query : Query α),
        (gen_global cfg timer lifetime road query).1.lifetime = lifetime + 1 ∧
        timer < (gen_global cfg timer lifetime road query).1.timer ∧
        (gen_global cfg timer lifetime road query).2.1.lifetime = lifetime + 1 ∧
        timer < (gen_global cfg timer lifetime road query).2.1.timer ∧
        (gen_global cfg timer lifetime road query).2.2.lifetime = lifetime + 1 ∧
        timer < (gen_global cfg timer lifetime road query).2.2.timer) ∧
      ∀ (s : Sim α) (rq : RoadQuery α) (rest : List (RoadQuery α)),
        popMax roadQueryCmp s.q = some (rq, rest) →
        check_local cfg rq s.lines = true →
          (step cfg s).q =
            (gen_global cfg rq.timer rq.lifetime rq.road rq.query).1 ::
              (gen_global cfg rq.timer rq.lifetime rq.road rq.query).2.1 ::
              (gen_global cfg rq.timer rq.lifetime rq.road rq.query).2.2 :: rest ∧
          (step cfg s).pushed = s.pushed + 3 := by
  constructor
  · intro timer lifetime road query
    refine ⟨rfl, by dsimp [gen_global]; omega, rfl,
      by dsimp [gen_global]; omega, rfl, by dsimp [gen_global]; omega⟩
  · intro s rq rest hpop hc
    rw [step_accepted cfg s rq rest hpop hc]
    exact ⟨rfl, rfl⟩

/-- C6 (amended): for every configuration and every seed query of lifetime
0, the growth loop terminates (some number of iterations empties the
queue), and the number of queries ever pushed is strictly less than
`3 ^ (max_lifetime + 2)`. -/
theorem c6_terminates_with_bound (α : Type) [LinearOrderedField α] [Trig α]
    (cfg : Config α) (seed : RoadQuery α) (h : seed.lifetime = 0) :
    (∃ n, (run cfg n (initSim seed)).q = []) ∧
      ∀ n, (run cfg n (initSim seed)).pushed < 3 ^ (cfg.max_lifetime + 2) := by
  constructor
  · exact ⟨phi cfg (initSim seed), run_drains cfg _ _ (le_refl _)⟩
  · intro n
    have hm := measure_run_le cfg n (initSim seed)
    rw [phi_init cfg seed h] at hm
    have hpush : (initSim seed).pushed = 1 := rfl
    rw [hpush] at hm
    have h1 : 1 ≤ 3 ^ (cfg.max_lifetime + 1) := Nat.one_le_pow _ _ (by norm_num)
    have h2 : 3 ^ (cfg.max_lifetime + 2) = 3 * 3 ^ (cfg.max_lifetime + 1) := by
      rw [pow_succ]
      ring
    omega

/-- C6, witness: the amended statement at the source's own seed and a
concrete configuration over `ℚ`. -/
theorem c6_terminates_with_bound_witness :
    (∃ n, (run (⟨0, (90, -90), 1, 0⟩ : Config ℚ) n
        (initSim initial_query)).q = []) ∧
      ∀ n, (run (⟨0, (90, -90), 1, 0⟩ : Config ℚ) n
          (initSim initial_query)).pushed < 3 ^ ((⟨0, (90, -90), 1, 0⟩ : Config ℚ).max_lifetime + 2) :=
  c6_terminates_with_bound ℚ ⟨0, (90, -90), 1, 0⟩ initial_query rfl

/-- C6, counterexample to the claimed bound: with `max_lifetime = 0` the
loop (seeded with the source's `initial_query`) runs to completion in 4
iterations having pushed 4 queries — the seed plus the accepted seed's 3
children — which exceeds `3 ^ max_lifetime = 1`. -/
theorem c6_claimed_bound_fails :
    (run (⟨0, (90, -90), 1, 0⟩ : Config ℚ) 4 (initSim initial_query)).q = [] ∧
      (run (⟨0, (90, -90), 1, 0⟩ : Config ℚ) 4 (initSim initial_query)).pushed = 4 ∧
      ¬ ((run (⟨0, (90, -90), 1, 0⟩ : Config ℚ) 4 (initSim initial_query)).pushed ≤
          3 ^ (⟨0, (90, -90), 1, 0⟩ : Config ℚ).max_lifetime) :=
  ⟨rfl, by decide, by decide⟩

/-- C7: the generator is deterministic — the final accepted network is a
function of the seed and configuration alone: any two complete runs (any
two fuel amounts that both drain the queue) yield the same `lines`
sequence, with the same segments in the same order. -/
theorem c7_two_runs_agree (α : Type) [LinearOrderedField α] [Trig α]
    (cfg : Config α) (s : Sim α) (m n : ℕ) (hm : (run cfg m s).q = [])
    (hn : (run cfg n s).q = []) :
    (run cfg m s).lines = (run cfg n s).lines := by
  rcases le_total m n with h | h
  · rw [run_stable cfg m n s h hm]
  · rw [run_stable cfg n m s h hn]

/-- C7, witness: two complete runs (4 and 7 iterations) of the concrete
`ℚ` instance produce the same accepted network. -/
theorem c7_two_runs_agree_witness :
    (run (⟨0, (90, -90), 1, 0⟩ : Config ℚ) 4 (initSim initial_query)).lines =
      (run (⟨0, (90, -90), 1, 0⟩ : Config ℚ) 7 (initSim initial_query)).lines :=
  c7_two_runs_agree ℚ ⟨0, (90, -90), 1, 0⟩ (initSim initial_query) 4 7 rfl rfl

/-- C8: a popped query whose `valid` flag is `false` fails `check_local`
unconditionally, contributes no segment to the accepted network, and
spawns no children: the step just discards it. -/
theorem c8_invalid_is_rejected (α : Type) [LinearOrderedField α] [Trig α]
    (cfg : Config α) :
    (∀ (rq : RoadQuery α) (lines : List (Line α)), rq.valid = false →
        check_local cfg rq lines = false) ∧
      ∀ (s : Sim α) (rq : RoadQuery α) (rest : List (RoadQuery α)),
        popMax roadQueryCmp s.q = some (rq, rest) → rq.valid = false →
          (step cfg s).lines = s.lines ∧ (step cfg s).q = rest ∧
            (step cfg s).pushed = s.pushed := by
  have hcl : ∀ (rq : RoadQuery α) (lines : List (Line α)), rq.valid = false →
      check_local cfg rq lines = false := by
    intro rq lines hv
    simp [check_local, hv]
  refine ⟨hcl, ?_⟩
  intro s rq rest hpop hv
  rw [step_rejected cfg s rq rest hpop (hcl rq s.lines hv)]
  exact ⟨rfl, rfl, rfl⟩

/-- C8, witness: a concrete state whose single pending query is invalid is
discarded without touching the network or the queue counter. -/
theorem c8_invalid_is_rejected_witness :
    (step (⟨3, (90, -90), 1, 0⟩ : Config ℚ)
        ⟨[⟨0, 0, ⟨0, 1⟩, ⟨⟨0, 0⟩, 0⟩, false⟩], [], 1⟩).lines =
      (⟨[⟨0, 0, ⟨0, 1⟩, ⟨⟨0, 0⟩, 0⟩, false⟩], [], 1⟩ : Sim ℚ).lines ∧
      (step (⟨3, (90, -90), 1, 0⟩ : Config ℚ)
          ⟨[⟨0, 0, ⟨0, 1⟩, ⟨⟨0, 0⟩, 0⟩, false⟩], [], 1⟩).q = [] ∧
      (step (⟨3, (90, -90), 1, 0⟩ : Config ℚ)
          ⟨[⟨0, 0, ⟨0, 1⟩, ⟨⟨0, 0⟩, 0⟩, false⟩], [], 1⟩).pushed =
        (⟨[⟨0, 0, ⟨0, 1⟩, ⟨⟨0, 0⟩, 0⟩, false⟩], [], 1⟩ : Sim ℚ).pushed :=
  (c8_invalid_is_rejected ℚ ⟨3, (90, -90), 1, 0⟩).2
    ⟨[⟨0, 0, ⟨0, 1⟩, ⟨⟨0, 0⟩, 0⟩, false⟩], [], 1⟩
    ⟨0, 0, ⟨0, 1⟩, ⟨⟨0, 0⟩, 0⟩, false⟩ [] rfl rfl

/-- C3, witness: popping a concrete two-element queue returns the query
with the smaller timer and removes exactly it. -/
theorem c3_scheduler_min_timer_witness :
    (∀ x ∈ [(⟨5, 0, ⟨0, 1⟩, ⟨⟨0, 0⟩, 0⟩, true⟩ : RoadQuery ℚ),
        ⟨2, 3, ⟨90, 2⟩, ⟨⟨1, 1⟩, 0⟩, false⟩],
        (⟨2, 3, ⟨90, 2⟩, ⟨⟨1, 1⟩, 0⟩, false⟩ : RoadQuery ℚ).timer ≤ x.timer) ∧
      ([(⟨2, 3, ⟨90, 2⟩, ⟨⟨1, 1⟩, 0⟩, false⟩ : RoadQuery ℚ),
          ⟨5, 0, ⟨0, 1⟩, ⟨⟨0, 0⟩, 0⟩, true⟩]).Perm
        [⟨5, 0, ⟨0, 1⟩, ⟨⟨0, 0⟩, 0⟩, true⟩, ⟨2, 3, ⟨90, 2⟩, ⟨⟨1, 1⟩, 0⟩, false⟩] :=
  (c3_scheduler_min_timer ℚ ⟨0, (90, -90), 1, 0⟩).1 _ _ _ rfl

/-- C5, witness: accepting the source's seed query in a concrete state
pushes exactly its three children. -/
theorem c5_expand_three_children_witness :
    (step (⟨2, (90, -90), 1, 5⟩ : Config ℚ)
        ⟨[(initial_query : RoadQuery ℚ)], [], 1⟩).q =
        (gen_global (⟨2, (90, -90), 1, 5⟩ : Config ℚ)
            (initial_query : RoadQuery ℚ).timer (initial_query : RoadQuery ℚ).lifetime
            (initial_query : RoadQuery ℚ).road (initial_query : RoadQuery ℚ).query).1 ::
          (gen_global (⟨2, (90, -90), 1, 5⟩ : Config ℚ)
              (initial_query : RoadQuery ℚ).timer (initial_query : RoadQuery ℚ).lifetime
              (initial_query : RoadQuery ℚ).road (initial_query : RoadQuery ℚ).query).2.1 ::
          (gen_global (⟨2, (90, -90), 1, 5⟩ : Config ℚ)
              (initial_query : RoadQuery ℚ).timer (initial_query : RoadQuery ℚ).lifetime
              (initial_query : RoadQuery ℚ).road (initial_query : RoadQuery ℚ).query).2.2 :: [] ∧
      (step (⟨2, (90, -90), 1, 5⟩ : Config ℚ)
          ⟨[(initial_query : RoadQuery ℚ)], [], 1⟩).pushed =
        (⟨[(initial_query : RoadQuery ℚ)], [], 1⟩ : Sim ℚ).pushed + 3 :=
  (c5_expand_three_children ℚ ⟨2, (90, -90), 1, 5⟩).2
    ⟨[(initial_query : RoadQuery ℚ)], [], 1⟩ (initial_query : RoadQuery ℚ) [] rfl rfl

/-- C10, witness: two overlapping collinear segments on the x-axis do not
register as intersecting, and neither does a zero-length segment against
an arbitrary segment, in either order. -/
theorem c10_collinear_never_intersects_witness :
    intersects (⟨⟨0, 0, 0⟩, ⟨2, 0, 0⟩⟩ : Line ℚ) ⟨⟨1, 0, 0⟩, ⟨3, 0, 0⟩⟩ = false ∧
      (intersects (⟨⟨1, 0, 1⟩, ⟨1, 0, 1⟩⟩ : Line ℚ) ⟨⟨0, 0, 0⟩, ⟨5, 0, 2⟩⟩ = false ∧
        intersects (⟨⟨0, 0, 0⟩, ⟨5, 0, 2⟩⟩ : Line ℚ) ⟨⟨1, 0, 1⟩, ⟨1, 0, 1⟩⟩ = false) :=
  ⟨(c10_collinear_never_intersects ℚ).1 ⟨⟨0, 0, 0⟩, ⟨2, 0, 0⟩⟩ ⟨⟨1, 0, 0⟩, ⟨3, 0, 0⟩⟩
      (by simp [segsCollinear, collinear3, orient]),
    (c10_collinear_never_intersects ℚ).2 ⟨⟨1, 0, 1⟩, ⟨1, 0, 1⟩⟩ ⟨⟨0, 0, 0⟩, ⟨5, 0, 2⟩⟩ rfl⟩
